import Mathlib

/-!
Shallow embedding of the internal-transfer system: the `store` package
(`CreateAccount`, `GetAccount`, `Transfer` in store.go), the request
validations (`internal/model/validations.go`), the HTTP handlers
(`internal/api/handler.go`), and the storage schema
(`migrations/0001_init.sql`: `accounts` has a primary key on `account_id`
and a `CHECK (balance >= 0)` constraint).

Balances and amounts are `shopspring/decimal` values in the source:
exact arbitrary-precision decimals.  Their values, together with the
addition, subtraction and order used by the code, embed faithfully in `ℚ`.

The database transaction (`pool.Begin` / `tx.Commit` / deferred
`tx.Rollback`) is modelled by working on a copy of the state and returning
the original state on every path that does not reach `Commit`: that is
exactly the effect of the deferred rollback in the source.  Lower-level
storage faults (connection loss, failed exec) are modelled by a fault
oracle `Nat → Bool` indexed by the syntactic storage-call site inside
`Transfer`.  Every storage operation that takes effect is also recorded in
an event trace, so that claims about which storage operations happen (and
in which order) are statable.
-/

namespace TransferSystem

abbrev AccountId := Int
abbrev Money := ℚ

/-- One row of the `transactions` audit table (synthetic id and timestamp
omitted; they are generated by the database and never read by the code). -/
structure TxnRecord where
  source_account_id : AccountId
  destination_account_id : AccountId
  amount : Money
  status : String
  error_message : Option String
deriving Repr, DecidableEq

/-- The durable state: the `accounts` table (assoc list keyed by
`account_id`, the primary key) and the append-only `transactions` table. -/
structure LedgerState where
  accounts : List (AccountId × Money)
  transactions : List TxnRecord
deriving Repr, DecidableEq

/-- Embeds `SELECT balance FROM accounts WHERE account_id = id`. -/
def getBal (l : List (AccountId × Money)) (id : AccountId) : Option Money :=
  match l with
  | [] => none
  | p :: rest => if p.1 = id then some p.2 else getBal rest id

/-- Embeds `UPDATE accounts SET balance = b WHERE account_id = id`: every row
whose key matches gets the new balance, all other rows are untouched. -/
def setBal (l : List (AccountId × Money)) (id : AccountId) (b : Money) :
    List (AccountId × Money) :=
  match l with
  | [] => []
  | p :: rest => (if p.1 = id then (id, b) else p) :: setBal rest id b

/-- Errors surfaced by store operations.  The source exports the two
sentinels `ErrInsufficientFunds` and `ErrAccountNotFound`; every other
error is a generic wrapped error built with `fmt.Errorf`. -/
inductive StoreErr where
  | accountNotFound
  | insufficientFunds
  | generic (msg : String)
deriving Repr, DecidableEq

/-- Faults the underlying database can raise on an `INSERT` into
`accounts`: primary-key violation, violation of `CHECK (balance >= 0)`,
or a lower-level failure such as a lost connection. -/
inductive PgErr where
  | uniqueViolation
  | checkViolation
  | connFailure
deriving Repr, DecidableEq

def pgMsg : PgErr → String
  | .uniqueViolation => "duplicate key value violates unique constraint"
  | .checkViolation => "new row violates check constraint"
  | .connFailure => "connection failure"

/-- Storage-operation events, used to record which storage primitives a
call actually performs. -/
inductive Ev where
  | beginTx
  | lockRead (id : AccountId)
  | updateBal (id : AccountId) (b : Money)
  | insertTxn (r : TxnRecord)
  | commitTx
  | rollbackTx
deriving Repr, DecidableEq

def failedRecord (src dst : AccountId) (amt : Money) (msg : String) : TxnRecord :=
  ⟨src, dst, amt, "failed", some msg⟩

def succeededRecord (src dst : AccountId) (amt : Money) : TxnRecord :=
  ⟨src, dst, amt, "succeeded", none⟩

/-- The Go function `Store.CreateAccount`: a single
`INSERT INTO accounts (account_id, balance) VALUES ($1, $2)`.
The store performs no check of its own; the database enforces the primary
key and the `CHECK (balance >= 0)` constraint, and any error is wrapped as
`fmt.Errorf("create account: %w", err)`.  `fault` injects a lower-level
storage failure. -/
def CreateAccount (fault : Option PgErr) (s : LedgerState)
    (accountID : AccountId) (initial : Money) : Except StoreErr Unit × LedgerState :=
  match fault with
  | some e => (.error (.generic ("create account: " ++ pgMsg e)), s)
  | none =>
    if (getBal s.accounts accountID).isSome then
      (.error (.generic ("create account: " ++ pgMsg .uniqueViolation)), s)
    else if initial < 0 then
      (.error (.generic ("create account: " ++ pgMsg .checkViolation)), s)
    else
      (.ok (), ⟨s.accounts ++ [(accountID, initial)], s.transactions⟩)

/-- The Go function `Store.GetAccount`: a single read of the balance; `ErrAccountNotFound`
when the row is absent. -/
def GetAccount (s : LedgerState) (accountID : AccountId) : Except StoreErr Money :=
  match getBal s.accounts accountID with
  | none => .error .accountNotFound
  | some b => .ok b

/-- The two-element `ids` slice after
`sort.Slice(ids, func(i, j int) bool { return ids[i] < ids[j] })`:
ascending order of account id. -/
def sortIds (srcID dstID : AccountId) : AccountId × AccountId :=
  if dstID < srcID then (dstID, srcID) else (srcID, dstID)

/-- The Go function `Store.Transfer`, line by line from store.go.

Storage-call sites consult the fault oracle at fixed indices, in source
order: 0 `pool.Begin`; 1 first locked `SELECT ... FOR UPDATE`; 2 failed
`INSERT` after the first read finds no row (its error is ignored by the
source); 3 second locked `SELECT ... FOR UPDATE`; 4 failed `INSERT` after
the second read finds no row (ignored); 5 failed `INSERT` in the
`!ok1 || !ok2` branch (ignored); 6 failed `INSERT` for insufficient funds
(ignored); 7 `UPDATE` of the source balance; 8 `UPDATE` of the destination
balance; 9 `INSERT` of the succeeded record; 10 `tx.Commit`.

Every return that does not pass `tx.Commit` leaves the durable state
untouched: the deferred `tx.Rollback` discards all work done inside the
transaction, including any record inserted on a failure path. -/
def Transfer (faults : Nat → Bool) (s : LedgerState)
    (srcID dstID : AccountId) (amount : Money) :
    Except StoreErr Unit × LedgerState × List Ev :=
  if amount ≤ 0 then
    (.error (.generic "amount must be positive"), s, [])
  else if srcID = dstID then
    (.ok (), s, [])
  else if faults 0 then
    (.error (.generic "begin tx"), s, [])
  else
    let a := (sortIds srcID dstID).1
    let b := (sortIds srcID dstID).2
    if faults 1 then
      (.error (.generic "select balance"), s, [.beginTx, .rollbackTx])
    else
      match getBal s.accounts a with
      | none =>
        let buf : List Ev :=
          if faults 2 then [] else
            [.insertTxn (failedRecord srcID dstID amount "account not found")]
        (.error .accountNotFound, s, [.beginTx, .lockRead a] ++ buf ++ [.rollbackTx])
      | some balA =>
        if faults 3 then
          (.error (.generic "select balance"), s, [.beginTx, .lockRead a, .rollbackTx])
        else
          match getBal s.accounts b with
          | none =>
            let buf : List Ev :=
              if faults 4 then [] else
                [.insertTxn (failedRecord srcID dstID amount "account not found")]
            (.error .accountNotFound, s,
              [.beginTx, .lockRead a, .lockRead b] ++ buf ++ [.rollbackTx])
          | some balB =>
            let balances : List (AccountId × Money) := [(a, balA), (b, balB)]
            match getBal balances srcID, getBal balances dstID with
            | some srcBal, some dstBal =>
              if srcBal < amount then
                let buf : List Ev :=
                  if faults 6 then [] else
                    [.insertTxn (failedRecord srcID dstID amount "insufficient funds")]
                (.error .insufficientFunds, s,
                  [.beginTx, .lockRead a, .lockRead b] ++ buf ++ [.rollbackTx])
              else
                let newSrc := srcBal - amount
                let newDst := dstBal + amount
                if faults 7 then
                  (.error (.generic "update src balance"), s,
                    [.beginTx, .lockRead a, .lockRead b, .rollbackTx])
                else
                  let acc1 := setBal s.accounts srcID newSrc
                  if faults 8 then
                    (.error (.generic "update dst balance"), s,
                      [.beginTx, .lockRead a, .lockRead b,
                        .updateBal srcID newSrc, .rollbackTx])
                  else
                    let acc2 := setBal acc1 dstID newDst
                    if faults 9 then
                      (.error (.generic "insert transaction log"), s,
                        [.beginTx, .lockRead a, .lockRead b,
                          .updateBal srcID newSrc, .updateBal dstID newDst, .rollbackTx])
                    else if faults 10 then
                      (.error (.generic "commit"), s,
                        [.beginTx, .lockRead a, .lockRead b,
                          .updateBal srcID newSrc, .updateBal dstID newDst,
                          .insertTxn (succeededRecord srcID dstID amount), .rollbackTx])
                    else
                      (.ok (),
                        ⟨acc2, s.transactions ++ [succeededRecord srcID dstID amount]⟩,
                        [.beginTx, .lockRead a, .lockRead b,
                          .updateBal srcID newSrc, .updateBal dstID newDst,
                          .insertTxn (succeededRecord srcID dstID amount), .commitTx])
            | _, _ =>
              let buf : List Ev :=
                if faults 5 then [] else
                  [.insertTxn (failedRecord srcID dstID amount "account not found")]
              (.error .accountNotFound, s,
                [.beginTx, .lockRead a, .lockRead b] ++ buf ++ [.rollbackTx])

/-- The fault-free oracle: every storage operation succeeds. -/
def noFaults : Nat → Bool := fun _ => false

/-! ## Request validation (`internal/model/validations.go`) -/

/-- The sentinel validation errors of `internal/model/validations.go`. -/
inductive ValidationErr where
  | invalidAccountID
  | invalidInitialBalance
  | invalidAmount
  | sameSourceDestination
deriving Repr, DecidableEq

/-- The `err.Error()` string of each validation sentinel. -/
def validationMsg : ValidationErr → String
  | .invalidAccountID => "account_id must be non-zero"
  | .invalidInitialBalance => "initial_balance must be >= 0"
  | .invalidAmount => "amount must be > 0"
  | .sameSourceDestination => "source and destination must differ"

/-- Payload of POST /accounts. -/
structure CreateAccountRequest where
  account_id : AccountId
  initial_balance : Money
deriving Repr, DecidableEq

/-- Payload of POST /transactions. -/
structure TransactionRequest where
  source_account_id : AccountId
  destination_account_id : AccountId
  amount : Money
deriving Repr, DecidableEq

/-- The Go method `CreateAccountRequest.Validate`. -/
def validateCreateAccount (r : CreateAccountRequest) : Option ValidationErr :=
  if r.account_id = 0 then some .invalidAccountID
  else if r.initial_balance < 0 then some .invalidInitialBalance
  else none

/-- The Go method `TransactionRequest.Validate`. -/
def validateTransaction (r : TransactionRequest) : Option ValidationErr :=
  if r.source_account_id = 0 ∨ r.destination_account_id = 0 then
    some .invalidAccountID
  else if r.source_account_id = r.destination_account_id then
    some .sameSourceDestination
  else if ¬ 0 < r.amount then
    some .invalidAmount
  else none

/-! ## HTTP handlers (`internal/api/handler.go`), after JSON decoding -/

/-- The handler `API.CreateAccount`: validate, then call the store; every store error
is mapped to the same opaque 500 response. Result: (status code, body)
and the resulting state. -/
def apiCreateAccount (fault : Option PgErr) (s : LedgerState)
    (req : CreateAccountRequest) : (Nat × String) × LedgerState :=
  match validateCreateAccount req with
  | some e => ((400, validationMsg e), s)
  | none =>
    match CreateAccount fault s req.account_id req.initial_balance with
    | (.error _, s') => ((500, "failed to create account"), s')
    | (.ok _, s') => ((201, ""), s')

/-- The handler `API.CreateTransaction`: validate, then call `Store.Transfer`,
mapping the two sentinels to 404/409 and everything else to an opaque 500.
The third component is `none` when `Store.Transfer` was never invoked
(the handler returned at validation), and `some trace` with the storage
trace of the `Transfer` call otherwise. -/
def apiCreateTransaction (faults : Nat → Bool) (s : LedgerState)
    (req : TransactionRequest) : (Nat × String) × LedgerState × Option (List Ev) :=
  match validateTransaction req with
  | some e => ((400, validationMsg e), s, none)
  | none =>
    match Transfer faults s req.source_account_id req.destination_account_id req.amount with
    | (.error .accountNotFound, s', tr) => ((404, "account not found"), s', some tr)
    | (.error .insufficientFunds, s', tr) => ((409, "insufficient funds"), s', some tr)
    | (.error (.generic _), s', tr) => ((500, "internal error"), s', some tr)
    | (.ok _, s', tr) => ((200, ""), s', some tr)

/-! ## Derived state predicates -/

/-- Sum of all account balances. -/
def totalBalance (s : LedgerState) : Money :=
  (s.accounts.map Prod.snd).sum

/-- Primary-key well-formedness of the `accounts` table. -/
def keysNodup (s : LedgerState) : Prop :=
  (s.accounts.map Prod.fst).Nodup

/-- Every stored balance is non-negative. -/
def allNonneg (s : LedgerState) : Prop :=
  ∀ p ∈ s.accounts, 0 ≤ p.2

instance (s : LedgerState) : Decidable (keysNodup s) := by
  unfold keysNodup; infer_instance

instance (s : LedgerState) : Decidable (allNonneg s) := by
  unfold allNonneg; infer_instance

/-- The account ids of the locked (`FOR UPDATE`) reads, in trace order. -/
def lockEvents (tr : List Ev) : List AccountId :=
  tr.filterMap (fun e => match e with | .lockRead id => some id | _ => none)

/-- The states reached by running a sequence of fault-free transfer
requests through `Store.Transfer`, in order. -/
def runTransfers (reqs : List (AccountId × AccountId × Money)) (s : LedgerState) :
    LedgerState :=
  match reqs with
  | [] => s
  | r :: rest => runTransfers rest (Transfer noFaults s r.1 r.2.1 r.2.2).2.1

/-! ## Lemmas about the table primitives -/

theorem getBal_mem {l : List (AccountId × Money)} {k : AccountId} {b : Money}
    (h : getBal l k = some b) : (k, b) ∈ l := by
  induction l with
  | nil => simp [getBal] at h
  | cons p rest ih =>
    by_cases hp : p.1 = k
    · rw [getBal, if_pos hp] at h
      injection h with h
      have hpk : p = (k, b) := by
        rcases p with ⟨p1, p2⟩
        simp only at hp h
        rw [hp, h]
      rw [← hpk]
      exact List.mem_cons_self p rest
    · rw [getBal, if_neg hp] at h
      exact List.mem_cons_of_mem p (ih h)

theorem setBal_keys (l : List (AccountId × Money)) (k : AccountId) (b : Money) :
    (setBal l k b).map Prod.fst = l.map Prod.fst := by
  induction l with
  | nil => rfl
  | cons p rest ih =>
    by_cases hp : p.1 = k
    · simp [setBal, if_pos hp, List.map_cons, ih, hp]
    · simp only [setBal, if_neg hp, List.map_cons, ih]

theorem getBal_setBal_ne {k' k : AccountId} (l : List (AccountId × Money)) (b : Money)
    (hne : k' ≠ k) : getBal (setBal l k b) k' = getBal l k' := by
  induction l with
  | nil => rfl
  | cons p rest ih =>
    have h1 : ¬ (k = k') := fun h => hne h.symm
    by_cases hp : p.1 = k
    · have h2 : ¬ (p.1 = k') := by rw [hp]; exact h1
      simp only [setBal, if_pos hp, getBal, if_neg h1, if_neg h2]
      exact ih
    · by_cases hp' : p.1 = k'
      · simp only [setBal, if_neg hp, getBal, if_pos hp']
      · simp only [setBal, if_neg hp, getBal, if_neg hp']
        exact ih

theorem getBal_setBal_self {l : List (AccountId × Money)} {k : AccountId} {b0 : Money}
    (b : Money) (h : getBal l k = some b0) : getBal (setBal l k b) k = some b := by
  induction l with
  | nil => simp [getBal] at h
  | cons p rest ih =>
    by_cases hp : p.1 = k
    · simp [setBal, if_pos hp, getBal]
    · rw [getBal, if_neg hp] at h
      simp only [setBal, if_neg hp, getBal]
      exact ih h

theorem setBal_not_mem {l : List (AccountId × Money)} {k : AccountId} (b : Money)
    (h : k ∉ l.map Prod.fst) : setBal l k b = l := by
  induction l with
  | nil => rfl
  | cons p rest ih =>
    simp only [List.map_cons, List.mem_cons] at h
    push_neg at h
    have hne : ¬ (p.1 = k) := fun hp => h.1 hp.symm
    simp only [setBal, if_neg hne, ih h.2]

theorem sum_setBal {l : List (AccountId × Money)} {k : AccountId} {b0 : Money}
    (b : Money) (hnd : (l.map Prod.fst).Nodup) (h : getBal l k = some b0) :
    ((setBal l k b).map Prod.snd).sum = (l.map Prod.snd).sum - b0 + b := by
  induction l with
  | nil => simp [getBal] at h
  | cons p rest ih =>
    simp only [List.map_cons, List.nodup_cons] at hnd
    by_cases hp : p.1 = k
    · rw [getBal, if_pos hp] at h
      injection h with h
      have hk : k ∉ rest.map Prod.fst := by rw [← hp]; exact hnd.1
      simp only [setBal, if_pos hp, setBal_not_mem b hk, List.map_cons, List.sum_cons, ← h]
      ring
    · rw [getBal, if_neg hp] at h
      simp only [setBal, if_neg hp, List.map_cons, List.sum_cons, ih hnd.2 h]
      ring

theorem nonneg_setBal {l : List (AccountId × Money)} {k : AccountId} {b : Money}
    (h : ∀ p ∈ l, 0 ≤ p.2) (hb : 0 ≤ b) : ∀ p ∈ setBal l k b, 0 ≤ p.2 := by
  induction l with
  | nil => intro p hp; simp [setBal] at hp
  | cons q rest ih =>
    intro p hp
    simp only [setBal, List.mem_cons] at hp
    rcases hp with hp | hp
    · by_cases hqk : q.1 = k
      · rw [if_pos hqk] at hp
        rw [hp]
        exact hb
      · rw [if_neg hqk] at hp
        rw [hp]
        exact h q (List.mem_cons_self q rest)
    · exact ih (fun r hr => h r (List.mem_cons_of_mem q hr)) p hp

theorem sortIds_fst (s d : AccountId) : (sortIds s d).1 = min s d := by
  unfold sortIds
  by_cases h : d < s
  · rw [if_pos h, min_eq_right h.le]
  · rw [if_neg h, min_eq_left (not_lt.mp h)]

theorem sortIds_snd (s d : AccountId) : (sortIds s d).2 = max s d := by
  unfold sortIds
  by_cases h : d < s
  · rw [if_pos h, max_eq_left h.le]
  · rw [if_neg h, max_eq_right (not_lt.mp h)]

theorem lockEvents_append (l1 l2 : List Ev) :
    lockEvents (l1 ++ l2) = lockEvents l1 ++ lockEvents l2 := by
  unfold lockEvents
  rw [List.filterMap_append]

theorem lockEvents_buf (c : Prop) [Decidable c] (r : TxnRecord) :
    lockEvents (if c then [] else [.insertTxn r]) = [] := by
  split <;> rfl

/-- Case analysis on `Transfer`: every run either leaves the durable state
unchanged — all rollback paths, plus the same-account no-op, which is the
only `ok` outcome among them — or is the committed success path, whose
final state updates the two balances and appends the succeeded record. -/
theorem Transfer_cases (f : Nat → Bool) (s : LedgerState) (src dst : AccountId)
    (amt : Money) :
    (((Transfer f s src dst amt).2.1 = s ∧
      ((Transfer f s src dst amt).1 = .ok () → src = dst)) ∨
    ∃ sb db, getBal s.accounts src = some sb ∧ getBal s.accounts dst = some db ∧
      0 < amt ∧ src ≠ dst ∧ amt ≤ sb ∧
      (Transfer f s src dst amt).1 = .ok () ∧
      (Transfer f s src dst amt).2.1 =
        ⟨setBal (setBal s.accounts src (sb - amt)) dst (db + amt),
          s.transactions ++ [succeededRecord src dst amt]⟩) ∧
    ∃ rest, lockEvents (Transfer f s src dst amt).2.2 ++ rest =
      [(sortIds src dst).1, (sortIds src dst).2] := by
  rw [Transfer]
  by_cases h0 : amt ≤ 0
  · rw [if_pos h0]
    exact ⟨.inl ⟨rfl, fun hok => by simp at hok⟩,
      [(sortIds src dst).1, (sortIds src dst).2], rfl⟩
  · rw [if_neg h0]
    by_cases hsd : src = dst
    · rw [if_pos hsd]
      exact ⟨.inl ⟨rfl, fun _ => hsd⟩,
        [(sortIds src dst).1, (sortIds src dst).2], rfl⟩
    · rw [if_neg hsd]
      by_cases hf0 : f 0 = true
      · rw [if_pos hf0]
        exact ⟨.inl ⟨rfl, fun hok => by simp at hok⟩,
          [(sortIds src dst).1, (sortIds src dst).2], rfl⟩
      · rw [if_neg hf0]
        dsimp only
        by_cases hlt : dst < src
        · rw [show sortIds src dst = (dst, src) from by rw [sortIds, if_pos hlt]]
          dsimp only
          by_cases hf1 : f 1 = true
          · rw [if_pos hf1]
            exact ⟨.inl ⟨rfl, fun hok => by simp at hok⟩, [dst, src], rfl⟩
          · rw [if_neg hf1]
            rcases hga : getBal s.accounts dst with _ | balA
            · refine ⟨.inl ⟨rfl, fun hok => by simp at hok⟩, [src], ?_⟩
              dsimp only
              rw [lockEvents_append, lockEvents_append, lockEvents_buf]
              rfl
            · dsimp only
              by_cases hf3 : f 3 = true
              · rw [if_pos hf3]
                exact ⟨.inl ⟨rfl, fun hok => by simp at hok⟩, [src], rfl⟩
              · rw [if_neg hf3]
                rcases hgb : getBal s.accounts src with _ | balB
                · refine ⟨.inl ⟨rfl, fun hok => by simp at hok⟩, [], ?_⟩
                  dsimp only
                  rw [lockEvents_append, lockEvents_append, lockEvents_buf]
                  rfl
                · dsimp only
                  have hds : ¬ (dst = src) := fun e => hsd e.symm
                  rw [show getBal [(dst, balA), (src, balB)] src = some balB from by
                      simp [getBal, hds],
                    show getBal [(dst, balA), (src, balB)] dst = some balA from by
                      simp [getBal]]
                  dsimp only
                  by_cases hins : balB < amt
                  · rw [if_pos hins]
                    refine ⟨.inl ⟨rfl, fun hok => by simp at hok⟩, [], ?_⟩
                    dsimp only
                    rw [lockEvents_append, lockEvents_append, lockEvents_buf]
                    rfl
                  · rw [if_neg hins]
                    by_cases hf7 : f 7 = true
                    · rw [if_pos hf7]
                      exact ⟨.inl ⟨rfl, fun hok => by simp at hok⟩, [], rfl⟩
                    · rw [if_neg hf7]
                      by_cases hf8 : f 8 = true
                      · rw [if_pos hf8]
                        exact ⟨.inl ⟨rfl, fun hok => by simp at hok⟩, [], rfl⟩
                      · rw [if_neg hf8]
                        by_cases hf9 : f 9 = true
                        · rw [if_pos hf9]
                          exact ⟨.inl ⟨rfl, fun hok => by simp at hok⟩, [], rfl⟩
                        · rw [if_neg hf9]
                          by_cases hf10 : f 10 = true
                          · rw [if_pos hf10]
                            exact ⟨.inl ⟨rfl, fun hok => by simp at hok⟩, [], rfl⟩
                          · rw [if_neg hf10]
                            exact ⟨.inr ⟨balB, balA, rfl, rfl,
                              not_le.mp h0, hsd, not_lt.mp hins, rfl, rfl⟩, [], rfl⟩
        · rw [show sortIds src dst = (src, dst) from by rw [sortIds, if_neg hlt]]
          dsimp only
          by_cases hf1 : f 1 = true
          · rw [if_pos hf1]
            exact ⟨.inl ⟨rfl, fun hok => by simp at hok⟩, [src, dst], rfl⟩
          · rw [if_neg hf1]
            rcases hga : getBal s.accounts src with _ | balA
            · refine ⟨.inl ⟨rfl, fun hok => by simp at hok⟩, [dst], ?_⟩
              dsimp only
              rw [lockEvents_append, lockEvents_append, lockEvents_buf]
              rfl
            · dsimp only
              by_cases hf3 : f 3 = true
              · rw [if_pos hf3]
                exact ⟨.inl ⟨rfl, fun hok => by simp at hok⟩, [dst], rfl⟩
              · rw [if_neg hf3]
                rcases hgb : getBal s.accounts dst with _ | balB
                · refine ⟨.inl ⟨rfl, fun hok => by simp at hok⟩, [], ?_⟩
                  dsimp only
                  rw [lockEvents_append, lockEvents_append, lockEvents_buf]
                  rfl
                · dsimp only
                  have hds : ¬ (src = dst) := hsd
                  rw [show getBal [(src, balA), (dst, balB)] src = some balA from by
                      simp [getBal],
                    show getBal [(src, balA), (dst, balB)] dst = some balB from by
                      simp [getBal, hds]]
                  dsimp only
                  by_cases hins : balA < amt
                  · rw [if_pos hins]
                    refine ⟨.inl ⟨rfl, fun hok => by simp at hok⟩, [], ?_⟩
                    dsimp only
                    rw [lockEvents_append, lockEvents_append, lockEvents_buf]
                    rfl
                  · rw [if_neg hins]
                    by_cases hf7 : f 7 = true
                    · rw [if_pos hf7]
                      exact ⟨.inl ⟨rfl, fun hok => by simp at hok⟩, [], rfl⟩
                    · rw [if_neg hf7]
                      by_cases hf8 : f 8 = true
                      · rw [if_pos hf8]
                        exact ⟨.inl ⟨rfl, fun hok => by simp at hok⟩, [], rfl⟩
                      · rw [if_neg hf8]
                        by_cases hf9 : f 9 = true
                        · rw [if_pos hf9]
                          exact ⟨.inl ⟨rfl, fun hok => by simp at hok⟩, [], rfl⟩
                        · rw [if_neg hf9]
                          by_cases hf10 : f 10 = true
                          · rw [if_pos hf10]
                            exact ⟨.inl ⟨rfl, fun hok => by simp at hok⟩, [], rfl⟩
                          · rw [if_neg hf10]
                            exact ⟨.inr ⟨balA, balB, rfl, rfl,
                              not_le.mp h0, hsd, not_lt.mp hins, rfl, rfl⟩, [], rfl⟩

theorem Transfer_keysNodup (f : Nat → Bool) (s : LedgerState) (src dst : AccountId)
    (amt : Money) (hnd : keysNodup s) : keysNodup (Transfer f s src dst amt).2.1 := by
  rcases (Transfer_cases f s src dst amt).1 with ⟨hstate, _⟩ |
    ⟨sb, db, _, _, _, _, _, _, hstate⟩
  · rw [hstate]; exact hnd
  · rw [hstate]
    show ((setBal (setBal s.accounts src (sb - amt)) dst (db + amt)).map Prod.fst).Nodup
    rw [setBal_keys, setBal_keys]
    exact hnd

theorem Transfer_totalBalance (f : Nat → Bool) (s : LedgerState) (src dst : AccountId)
    (amt : Money) (hnd : keysNodup s) :
    totalBalance (Transfer f s src dst amt).2.1 = totalBalance s := by
  rcases (Transfer_cases f s src dst amt).1 with ⟨hstate, _⟩ |
    ⟨sb, db, hsb, hdb, _, hsd, _, _, hstate⟩
  · rw [hstate]
  · rw [hstate]
    have hnd1 : ((setBal s.accounts src (sb - amt)).map Prod.fst).Nodup := by
      rw [setBal_keys]; exact hnd
    have h1 : getBal (setBal s.accounts src (sb - amt)) dst = some db := by
      rw [getBal_setBal_ne _ _ (fun e => hsd e.symm)]; exact hdb
    show ((setBal (setBal s.accounts src (sb - amt)) dst (db + amt)).map Prod.snd).sum
      = totalBalance s
    rw [sum_setBal _ hnd1 h1, sum_setBal _ hnd hsb]
    show _ = (s.accounts.map Prod.snd).sum
    ring

theorem Transfer_allNonneg (f : Nat → Bool) (s : LedgerState) (src dst : AccountId)
    (amt : Money) (hnn : allNonneg s) : allNonneg (Transfer f s src dst amt).2.1 := by
  rcases (Transfer_cases f s src dst amt).1 with ⟨hstate, _⟩ |
    ⟨sb, db, hsb, hdb, hpos, hsd, hle, _, hstate⟩
  · rw [hstate]; exact hnn
  · rw [hstate]
    intro p hp
    have h1 : (0 : Money) ≤ sb - amt := sub_nonneg.mpr hle
    have h2 : (0 : Money) ≤ db + amt := add_nonneg (hnn _ (getBal_mem hdb)) hpos.le
    exact nonneg_setBal (nonneg_setBal hnn h1) h2 p hp

theorem runTransfers_totalBalance (reqs : List (AccountId × AccountId × Money))
    (s : LedgerState) (hnd : keysNodup s) :
    totalBalance (runTransfers reqs s) = totalBalance s := by
  induction reqs generalizing s with
  | nil => rfl
  | cons r rest ih =>
    rw [runTransfers, ih _ (Transfer_keysNodup _ _ _ _ _ hnd),
      Transfer_totalBalance _ _ _ _ _ hnd]

/-- A fault-free transfer between two distinct existing accounts is decided
entirely by the funds check: the exported sentinel `ErrInsufficientFunds`
when the source's locked balance is below the amount, success otherwise. -/
theorem Transfer_noFaults_run (s : LedgerState) (src dst : AccountId)
    (amt sb db : Money) (hpos : 0 < amt) (hsd : src ≠ dst)
    (hsb : getBal s.accounts src = some sb) (hdb : getBal s.accounts dst = some db) :
    (Transfer noFaults s src dst amt).1 =
      (if sb < amt then .error .insufficientFunds else .ok ()) := by
  have hnf : ∀ n, ¬ noFaults n = true := fun n => by simp [noFaults]
  rw [Transfer, if_neg (not_le.mpr hpos), if_neg hsd, if_neg (hnf 0)]
  dsimp only
  by_cases hlt : dst < src
  · rw [show sortIds src dst = (dst, src) from by rw [sortIds, if_pos hlt]]
    dsimp only
    rw [if_neg (hnf 1), hdb]
    dsimp only
    rw [if_neg (hnf 3), hsb]
    dsimp only
    have hds : ¬ (dst = src) := fun e => hsd e.symm
    rw [show getBal [(dst, db), (src, sb)] src = some sb from by simp [getBal, hds],
      show getBal [(dst, db), (src, sb)] dst = some db from by simp [getBal]]
    dsimp only
    by_cases hins : sb < amt
    · rw [if_pos hins, if_pos hins]
    · rw [if_neg hins, if_neg hins, if_neg (hnf 7), if_neg (hnf 8), if_neg (hnf 9),
        if_neg (hnf 10)]
  · rw [show sortIds src dst = (src, dst) from by rw [sortIds, if_neg hlt]]
    dsimp only
    rw [if_neg (hnf 1), hsb]
    dsimp only
    rw [if_neg (hnf 3), hdb]
    dsimp only
    rw [show getBal [(src, sb), (dst, db)] src = some sb from by simp [getBal],
      show getBal [(src, sb), (dst, db)] dst = some db from by simp [getBal, hsd]]
    dsimp only
    by_cases hins : sb < amt
    · rw [if_pos hins, if_pos hins]
    · rw [if_neg hins, if_neg hins, if_neg (hnf 7), if_neg (hnf 8), if_neg (hnf 9),
        if_neg (hnf 10)]

theorem CreateAccount_negative_frame (fault : Option PgErr) (s : LedgerState)
    (id : AccountId) (init : Money) (hneg : init < 0) :
    (CreateAccount fault s id init).2 = s ∧
    ∃ msg, (CreateAccount fault s id init).1 = .error (.generic msg) := by
  cases fault with
  | some e => exact ⟨rfl, _, rfl⟩
  | none =>
    unfold CreateAccount
    dsimp only
    by_cases hdup : (getBal s.accounts id).isSome
    · rw [if_pos hdup]
      exact ⟨rfl, _, rfl⟩
    · rw [if_neg hdup, if_pos hneg]
      exact ⟨rfl, _, rfl⟩

/-! ## The claims -/

/-- C1 (code bug): a `Transfer` rejected for insufficient funds or a
missing account does insert the matching `failed` record, but only inside
the still-open transaction, and then returns the error without committing;
the deferred rollback discards it, so the durable audit log is unchanged —
no `failed` record is ever committed, contrary to the specification.  Both
failing inputs below end with `transactions = []` in the final state while
the storage trace shows the insert followed by the rollback. -/
theorem transfer_failure_audit_rolled_back :
    (Transfer noFaults ⟨[(1, 50), (2, 0)], []⟩ 1 2 100 =
      (.error .insufficientFunds, ⟨[(1, 50), (2, 0)], []⟩,
        [.beginTx, .lockRead 1, .lockRead 2,
          .insertTxn (failedRecord 1 2 100 "insufficient funds"), .rollbackTx])) ∧
    (Transfer noFaults ⟨[(1, 50), (2, 0)], []⟩ 1 3 5 =
      (.error .accountNotFound, ⟨[(1, 50), (2, 0)], []⟩,
        [.beginTx, .lockRead 1, .lockRead 3,
          .insertTxn (failedRecord 1 3 5 "account not found"), .rollbackTx])) :=
  ⟨rfl, rfl⟩

/-- C2: every committed fault-free transfer between distinct accounts
conserves the sum of the two balances, leaves neither balance negative,
keeps the total of all balances unchanged, and consequently the total is
invariant under any sequence of transfers. -/
theorem transfer_conservation (s : LedgerState) (src dst : AccountId) (amt : Money)
    (hnd : keysNodup s) (hnn : allNonneg s)
    (hok : (Transfer noFaults s src dst amt).1 = .ok ())
    (hsd : src ≠ dst) (hpos : 0 < amt) :
    (∃ sb db, getBal s.accounts src = some sb ∧ getBal s.accounts dst = some db ∧
      getBal (Transfer noFaults s src dst amt).2.1.accounts src = some (sb - amt) ∧
      getBal (Transfer noFaults s src dst amt).2.1.accounts dst = some (db + amt) ∧
      (sb - amt) + (db + amt) = sb + db ∧ 0 ≤ sb - amt ∧ 0 ≤ db + amt) ∧
    totalBalance (Transfer noFaults s src dst amt).2.1 = totalBalance s ∧
    (∀ reqs : List (AccountId × AccountId × Money),
      totalBalance (runTransfers reqs s) = totalBalance s) := by
  refine ⟨?_, Transfer_totalBalance _ _ _ _ _ hnd,
    fun reqs => runTransfers_totalBalance reqs s hnd⟩
  rcases (Transfer_cases noFaults s src dst amt).1 with ⟨_, himp⟩ |
    ⟨sb, db, hsb, hdb, hpos2, _, hle, _, hstate⟩
  · exact absurd (himp hok) hsd
  · refine ⟨sb, db, hsb, hdb, ?_, ?_, by ring, sub_nonneg.mpr hle,
      add_nonneg (hnn _ (getBal_mem hdb)) hpos2.le⟩
    · rw [hstate]
      show getBal (setBal (setBal s.accounts src (sb - amt)) dst (db + amt)) src = _
      rw [getBal_setBal_ne _ _ hsd]
      exact getBal_setBal_self _ hsb
    · rw [hstate]
      show getBal (setBal (setBal s.accounts src (sb - amt)) dst (db + amt)) dst = _
      have h1 : getBal (setBal s.accounts src (sb - amt)) dst = some db := by
        rw [getBal_setBal_ne _ _ (fun e => hsd e.symm)]
        exact hdb
      exact getBal_setBal_self _ h1

theorem transfer_conservation_witness :
    totalBalance (Transfer noFaults ⟨[(1, 50), (2, 10)], []⟩ 1 2 20).2.1 =
      totalBalance ⟨[(1, 50), (2, 10)], []⟩ :=
  (transfer_conservation ⟨[(1, 50), (2, 10)], []⟩ 1 2 20 (by decide) (by decide) rfl
    (by decide) (by decide)).2.1

/-- C3: non-negativity of every stored balance is an invariant: it holds
after account creation under the precondition `initialBalance ≥ 0`, and it
is preserved by every `Transfer`, successful or failed, under any fault
pattern. -/
theorem nonneg_invariant :
    (∀ fault s id init, (0 : Money) ≤ init → allNonneg s →
      allNonneg (CreateAccount fault s id init).2) ∧
    (∀ f s src dst amt, allNonneg s → allNonneg (Transfer f s src dst amt).2.1) := by
  constructor
  · intro fault s id init hinit hnn
    unfold CreateAccount
    cases fault with
    | some e => exact hnn
    | none =>
      dsimp only
      by_cases hdup : (getBal s.accounts id).isSome
      · rw [if_pos hdup]
        exact hnn
      · rw [if_neg hdup, if_neg (not_lt.mpr hinit)]
        intro p hp
        rcases List.mem_append.mp hp with hp | hp
        · exact hnn p hp
        · rw [List.mem_singleton] at hp
          rw [hp]
          exact hinit
  · exact fun f s src dst amt hnn => Transfer_allNonneg f s src dst amt hnn

theorem nonneg_invariant_witness :
    allNonneg (CreateAccount none ⟨[], []⟩ 1 5).2 ∧
    allNonneg (Transfer noFaults ⟨[(1, 50), (2, 10)], []⟩ 1 2 20).2.1 :=
  ⟨nonneg_invariant.1 none ⟨[], []⟩ 1 5 (by decide) (by decide),
    nonneg_invariant.2 noFaults ⟨[(1, 50), (2, 10)], []⟩ 1 2 20 (by decide)⟩

/-- C4: a self-transfer with a positive amount returns success while
performing no storage operation at all — the trace is empty (no
transaction, no read, no write, no audit record) and the state is
untouched. -/
theorem self_transfer_noop (f : Nat → Bool) (s : LedgerState) (id : AccountId)
    (amt : Money) (hpos : 0 < amt) :
    Transfer f s id id amt = (.ok (), s, []) := by
  rw [Transfer, if_neg (not_le.mpr hpos), if_pos rfl]

theorem self_transfer_noop_witness :
    (0 : Money) < 5 ∧
    Transfer noFaults ⟨[(1, 50)], []⟩ 1 1 5 = (.ok (), ⟨[(1, 50)], []⟩, []) :=
  ⟨by decide, self_transfer_noop noFaults ⟨[(1, 50)], []⟩ 1 5 (by decide)⟩

/-- C5: with both accounts present, a positive amount and distinct
accounts, a fault-free transfer fails with `ErrInsufficientFunds` exactly
when the source's locked balance is strictly below the amount; in
particular transferring the whole balance succeeds. -/
theorem insufficient_funds_iff (s : LedgerState) (src dst : AccountId)
    (amt sb db : Money) (hpos : 0 < amt) (hsd : src ≠ dst)
    (hsb : getBal s.accounts src = some sb) (hdb : getBal s.accounts dst = some db) :
    ((Transfer noFaults s src dst amt).1 = .error .insufficientFunds ↔ sb < amt) ∧
    (amt ≤ sb → (Transfer noFaults s src dst amt).1 = .ok ()) := by
  have hrun := Transfer_noFaults_run s src dst amt sb db hpos hsd hsb hdb
  refine ⟨⟨fun hres => ?_, fun hins => ?_⟩, fun hle => ?_⟩
  · by_cases hins : sb < amt
    · exact hins
    · rw [hrun, if_neg hins] at hres
      exact absurd hres (by simp)
  · rw [hrun, if_pos hins]
  · rw [hrun, if_neg (not_lt.mpr hle)]

theorem insufficient_funds_iff_witness :
    ((Transfer noFaults ⟨[(1, 50), (2, 10)], []⟩ 1 2 50).1 =
        .error .insufficientFunds ↔ (50 : Money) < 50) ∧
    ((50 : Money) ≤ 50 →
      (Transfer noFaults ⟨[(1, 50), (2, 10)], []⟩ 1 2 50).1 = .ok ()) :=
  insufficient_funds_iff ⟨[(1, 50), (2, 10)], []⟩ 1 2 50 50 10 (by decide) (by decide)
    rfl rfl

/-- C6 counterexample: the engine does not re-check `initialBalance ≥ 0`.
Called directly with a negative balance it attempts the insert and
surfaces the storage layer's check-constraint rejection as the same
generic wrapped error kind a lower-level storage fault produces — not an
invalid-input outcome. -/
theorem createAccount_no_engine_recheck_cex :
    (CreateAccount none ⟨[], []⟩ 1 (-5)).1 =
      .error (.generic ("create account: " ++ pgMsg .checkViolation)) ∧
    (CreateAccount (some .connFailure) ⟨[], []⟩ 1 5).1 =
      .error (.generic ("create account: " ++ pgMsg .connFailure)) ∧
    (CreateAccount none ⟨[], []⟩ 1 (-5)).2 = ⟨[], []⟩ :=
  ⟨rfl, rfl, rfl⟩

/-- C6 amended: for a negative initial balance the engine inserts no
account and fails, but with a generic wrapped storage error (the database
CHECK constraint), not an invalid-input outcome; the `initialBalance ≥ 0`
precondition is enforced only at the caller boundary by
`CreateAccountRequest.Validate`, which rejects the request with a 400
before the engine is reached. -/
theorem createAccount_negative_rejected_by_storage (fault : Option PgErr)
    (s : LedgerState) (id : AccountId) (init : Money)
    (hneg : init < 0) (hid : id ≠ 0) :
    (CreateAccount fault s id init).2 = s ∧
    (∃ msg, (CreateAccount fault s id init).1 = .error (.generic msg)) ∧
    validateCreateAccount ⟨id, init⟩ = some .invalidInitialBalance ∧
    apiCreateAccount fault s ⟨id, init⟩ =
      ((400, validationMsg .invalidInitialBalance), s) := by
  have hval : validateCreateAccount ⟨id, init⟩ = some .invalidInitialBalance := by
    simp [validateCreateAccount, hid, hneg]
  have hframe := CreateAccount_negative_frame fault s id init hneg
  refine ⟨hframe.1, hframe.2, hval, ?_⟩
  unfold apiCreateAccount
  rw [hval]

theorem createAccount_negative_rejected_by_storage_witness :
    (CreateAccount none ⟨[], []⟩ 1 (-5)).2 = ⟨[], []⟩ ∧
    (∃ msg, (CreateAccount none ⟨[], []⟩ 1 (-5)).1 = .error (.generic msg)) ∧
    validateCreateAccount ⟨1, -5⟩ = some .invalidInitialBalance ∧
    apiCreateAccount none ⟨[], []⟩ ⟨1, -5⟩ =
      ((400, validationMsg .invalidInitialBalance), ⟨[], []⟩) :=
  createAccount_negative_rejected_by_storage none ⟨[], []⟩ 1 (-5) (by decide) (by decide)

/-- C7: any `Transfer` that returns an error — the two business sentinels
or any injected lower-level fault between `Begin` and `Commit` — leaves
the durable state exactly as it was: the rollback undoes everything. -/
theorem transfer_error_frame (f : Nat → Bool) (s : LedgerState) (src dst : AccountId)
    (amt : Money) (e : StoreErr)
    (herr : (Transfer f s src dst amt).1 = .error e) :
    (Transfer f s src dst amt).2.1 = s := by
  rcases (Transfer_cases f s src dst amt).1 with ⟨hstate, _⟩ |
    ⟨_, _, _, _, _, _, _, hok, _⟩
  · exact hstate
  · exact absurd (hok.symm.trans herr) (by simp)

theorem transfer_error_frame_witness :
    (Transfer noFaults ⟨[(1, 50), (2, 0)], []⟩ 1 2 100).1 =
      .error .insufficientFunds ∧
    (Transfer noFaults ⟨[(1, 50), (2, 0)], []⟩ 1 2 100).2.1 = ⟨[(1, 50), (2, 0)], []⟩ :=
  ⟨rfl, transfer_error_frame noFaults ⟨[(1, 50), (2, 0)], []⟩ 1 2 100
    .insufficientFunds rfl⟩

/-- C8: on every path of every `Transfer` between distinct accounts with a
positive amount, the sequence of locked (`FOR UPDATE`) reads is a prefix
of `[min, max]` of the two ids: the smaller id is always locked first and
the larger id is never locked before it, regardless of which id is the
source. -/
theorem lock_order_ascending (f : Nat → Bool) (s : LedgerState) (src dst : AccountId)
    (amt : Money) (hsd : src ≠ dst) (hpos : 0 < amt) :
    ∃ rest, lockEvents (Transfer f s src dst amt).2.2 ++ rest =
      [min src dst, max src dst] := by
  have h := (Transfer_cases f s src dst amt).2
  rwa [sortIds_fst, sortIds_snd] at h

theorem lock_order_ascending_witness :
    ∃ rest, lockEvents (Transfer noFaults ⟨[(1, 50), (2, 50)], []⟩ 2 1 5).2.2 ++ rest =
      [min 2 1, max 2 1] :=
  lock_order_ascending noFaults ⟨[(1, 50), (2, 50)], []⟩ 2 1 5 (by decide) (by decide)

/-- C9 counterexample: creating an account whose id already exists fails
with the same generic wrapped error kind as a lower-level storage fault,
and the API caller maps both to the identical opaque
`500 "failed to create account"` response: there is no distinguishable
`DuplicateAccount` outcome. -/
theorem duplicate_indistinct_cex :
    (CreateAccount none ⟨[(7, 10)], []⟩ 7 0).1 =
      .error (.generic ("create account: " ++ pgMsg .uniqueViolation)) ∧
    (apiCreateAccount none ⟨[(7, 10)], []⟩ ⟨7, 0⟩).1 =
      (500, "failed to create account") ∧
    (apiCreateAccount (some .connFailure) ⟨[(7, 10)], []⟩ ⟨8, 0⟩).1 =
      (500, "failed to create account") ∧
    (apiCreateAccount none ⟨[(7, 10)], []⟩ ⟨7, 0⟩).1 =
      (apiCreateAccount (some .connFailure) ⟨[(7, 10)], []⟩ ⟨8, 0⟩).1 :=
  ⟨rfl, rfl, rfl, rfl⟩

/-- C9 amended: a duplicate id makes `CreateAccount` fail without touching
the state, but as a generic wrapped storage error; the handler surfaces it
as the same `500 "failed to create account"` response it gives every
storage failure, so the caller cannot tell the two apart. -/
theorem duplicate_surfaces_as_storage_error (s : LedgerState) (id : AccountId)
    (init b : Money) (hdup : getBal s.accounts id = some b)
    (hid : id ≠ 0) (hinit : ¬ init < 0) :
    CreateAccount none s id init =
      (.error (.generic ("create account: " ++ pgMsg .uniqueViolation)), s) ∧
    (apiCreateAccount none s ⟨id, init⟩).1 = (500, "failed to create account") ∧
    (apiCreateAccount none s ⟨id, init⟩).1 =
      (apiCreateAccount (some .connFailure) s ⟨id, init⟩).1 := by
  have hsome : (getBal s.accounts id).isSome = true := by rw [hdup]; rfl
  have hca : CreateAccount none s id init =
      (.error (.generic ("create account: " ++ pgMsg .uniqueViolation)), s) := by
    unfold CreateAccount
    dsimp only
    rw [if_pos hsome]
  have hval : validateCreateAccount ⟨id, init⟩ = none := by
    simp [validateCreateAccount, hid, hinit]
  refine ⟨hca, ?_, ?_⟩
  · unfold apiCreateAccount
    rw [hval]
    dsimp only
    rw [hca]
  · unfold apiCreateAccount
    rw [hval]
    dsimp only
    rw [hca]
    rfl

theorem duplicate_surfaces_as_storage_error_witness :
    CreateAccount none ⟨[(9, 10)], []⟩ 9 0 =
      (.error (.generic ("create account: " ++ pgMsg .uniqueViolation)),
        ⟨[(9, 10)], []⟩) ∧
    (apiCreateAccount none ⟨[(9, 10)], []⟩ ⟨9, 0⟩).1 =
      (500, "failed to create account") ∧
    (apiCreateAccount none ⟨[(9, 10)], []⟩ ⟨9, 0⟩).1 =
      (apiCreateAccount (some .connFailure) ⟨[(9, 10)], []⟩ ⟨9, 0⟩).1 :=
  duplicate_surfaces_as_storage_error ⟨[(9, 10)], []⟩ 9 0 10 rfl (by decide) (by decide)

/-- C10: any transfer request whose source equals its destination is
rejected by `TransactionRequest.Validate` with an invalid-input error and
a 400 response before `Store.Transfer` is ever invoked (the trace
component is `none`), so the engine's same-account no-op is unreachable
through the HTTP boundary. -/
theorem same_account_rejected_at_boundary (faults : Nat → Bool) (s : LedgerState)
    (req : TransactionRequest)
    (heq : req.source_account_id = req.destination_account_id) :
    ∃ e, validateTransaction req = some e ∧
      apiCreateTransaction faults s req = ((400, validationMsg e), s, none) := by
  by_cases hz : req.source_account_id = 0 ∨ req.destination_account_id = 0
  · refine ⟨.invalidAccountID, ?_, ?_⟩
    · unfold validateTransaction
      rw [if_pos hz]
    · unfold apiCreateTransaction validateTransaction
      rw [if_pos hz]
  · refine ⟨.sameSourceDestination, ?_, ?_⟩
    · unfold validateTransaction
      rw [if_neg hz, if_pos heq]
    · unfold apiCreateTransaction validateTransaction
      rw [if_neg hz, if_pos heq]

theorem same_account_rejected_at_boundary_witness :
    ∃ e, validateTransaction ⟨5, 5, 7⟩ = some e ∧
      apiCreateTransaction noFaults ⟨[], []⟩ ⟨5, 5, 7⟩ =
        ((400, validationMsg e), ⟨[], []⟩, none) :=
  same_account_rejected_at_boundary noFaults ⟨[], []⟩ ⟨5, 5, 7⟩ rfl

end TransferSystem
